import Mathlib

/-!
Shallow embedding of `src/stop_sign_detection.cpp` (stop-sign detection and
route annotation).  C++ `double` values are modelled as rationals; OpenCV
`cv::Rect` and `cv::Point` integer fields as `Int`.  The OpenCV primitives the
repository merely calls (colour conversion, morphology, contour extraction,
polygon approximation, area, bounding rectangle) are kept abstract as
parameters; `cv::inRange` and the mask `|` are modelled concretely from their
documented elementwise semantics because the repository's red-segmentation
constants live in those calls.
-/

/-- `cv::Point`: a 2D integer point (vertex of a contour). -/
structure Pt where
  x : Int
  y : Int
deriving DecidableEq, Repr

/-- `cv::Rect`: axis-aligned rectangle, `(x, y)` the top-left corner. -/
structure Rect where
  x : Int
  y : Int
  width : Int
  height : Int
deriving DecidableEq, Repr

/-- `struct DetectedStopSign` (stop_sign_detection.cpp lines 19-22). -/
structure DetectedStopSign where
  boundingBox : Rect
  contour : List Pt
deriving DecidableEq, Repr

/-- `struct MapNode` (stop_sign_detection.cpp lines 88-92). -/
structure MapNode where
  x : ℚ
  y : ℚ
  hasStop : Bool
deriving DecidableEq, Repr, Inhabited

/-- Squared Euclidean distance between a route node and a detection's
bounding-box top-left corner: `dx*dx + dy*dy` for
`dx = node.x - sign.boundingBox.x`, `dy = node.y - sign.boundingBox.y`
(stop_sign_detection.cpp lines 115-117; the source compares
`sqrt (dx*dx + dy*dy) < 50.0`, equivalent to `dx*dx + dy*dy < 2500`). -/
def nodeDistSq (node : MapNode) (sign : DetectedStopSign) : ℚ :=
  let dx : ℚ := node.x - (sign.boundingBox.x : ℚ)
  let dy : ℚ := node.y - (sign.boundingBox.y : ℚ)
  dx * dx + dy * dy

/-- Body of the inner loop of `updateRoutingWithStopSigns`
(stop_sign_detection.cpp lines 112-123): if the sign is closer than 50.0
units, set `hasStop` to `true`. -/
def markNode (node : MapNode) (sign : DetectedStopSign) : MapNode :=
  if nodeDistSq node sign < 2500 then { node with hasStop := true } else node

/-- `updateRoutingWithStopSigns` (stop_sign_detection.cpp lines 105-125):
for each node of the route, fold the inner loop over all detections. -/
def updateRoutingWithStopSigns (route : List MapNode)
    (signs : List DetectedStopSign) : List MapNode :=
  route.map (fun node => signs.foldl markNode node)

/-! Basic facts about the inner fold. -/

theorem markNode_x (node : MapNode) (sign : DetectedStopSign) :
    (markNode node sign).x = node.x := by
  unfold markNode; split <;> rfl

theorem markNode_y (node : MapNode) (sign : DetectedStopSign) :
    (markNode node sign).y = node.y := by
  unfold markNode; split <;> rfl

theorem nodeDistSq_congr {n m : MapNode} (hx : n.x = m.x) (hy : n.y = m.y)
    (sign : DetectedStopSign) : nodeDistSq n sign = nodeDistSq m sign := by
  unfold nodeDistSq; rw [hx, hy]

theorem markNode_hasStop (node : MapNode) (sign : DetectedStopSign) :
    (markNode node sign).hasStop
      = (node.hasStop || decide (nodeDistSq node sign < 2500)) := by
  unfold markNode
  by_cases h : nodeDistSq node sign < 2500
  · simp [h]
  · simp [h]

/-- Closed form for the inner loop of `updateRoutingWithStopSigns` over one
node: the coordinates are untouched and `hasStop` becomes the disjunction of
its old value with the per-sign proximity tests. -/
theorem foldl_markNode_eq (signs : List DetectedStopSign) (node : MapNode) :
    signs.foldl markNode node
      = ⟨node.x, node.y,
         node.hasStop || signs.any (fun s => decide (nodeDistSq node s < 2500))⟩ := by
  induction signs generalizing node with
  | nil => simp
  | cons s rest ih =>
      rw [List.foldl_cons, ih]
      have hx := markNode_x node s
      have hy := markNode_y node s
      have hs := markNode_hasStop node s
      have hcong : ∀ t, nodeDistSq (markNode node s) t = nodeDistSq node t :=
        fun t => nodeDistSq_congr hx hy t
      simp only [hx, hy, hs, hcong, List.any_cons]
      congr 1
      rw [Bool.or_assoc]

theorem getD_map_of_lt {α β : Type} (f : α → β) (l : List α) (i : Nat)
    (h : i < l.length) (d : β) (d₂ : α) :
    (l.map f).getD i d = f (l.getD i d₂) := by
  rw [List.getD_eq_getElem _ _ (by simpa using h), List.getD_eq_getElem _ _ h]
  simp

/-- The source compares `sqrt (dx*dx + dy*dy) < 50.0`; over the reals this is
equivalent to the squared comparison `dx*dx + dy*dy < 2500`. -/
theorem sqrt_lt_fifty_iff (q : ℚ) : Real.sqrt (q : ℝ) < 50 ↔ q < 2500 := by
  rw [Real.sqrt_lt' (by norm_num : (0 : ℝ) < 50)]
  constructor
  · intro h
    exact_mod_cast (by norm_num at h ⊢; exact_mod_cast h : ((q : ℝ) < 2500))
  · intro h
    norm_num
    exact_mod_cast h

theorem any_perm {α : Type} {l₁ l₂ : List α} (h : l₁.Perm l₂) (f : α → Bool) :
    l₁.any f = l₂.any f := by
  induction h with
  | nil => rfl
  | cons x _ ih => simp [List.any_cons, ih]
  | swap x y l => simp [List.any_cons, Bool.or_left_comm]
  | trans _ _ ih₁ ih₂ => rw [ih₁, ih₂]

/-- The hardcoded example route of `main` (stop_sign_detection.cpp
lines 146-151). -/
def routeDemo : List MapNode :=
  [⟨100, 150, false⟩, ⟨200, 250, false⟩, ⟨300, 350, false⟩]

/-- A sample detection with bounding-box top-left corner (110, 160). -/
def signDemo : DetectedStopSign := ⟨⟨110, 160, 40, 40⟩, []⟩

/-- A sample detection far from every node of `routeDemo`. -/
def signFar : DetectedStopSign := ⟨⟨500, 500, 10, 10⟩, []⟩

/-- C1: after `updateRoutingWithStopSigns`, node `i` has `hasStop = true` iff
it already was `true` or some detection's bounding-box top-left corner lies at
Euclidean distance strictly less than 50.0 from the node. -/
theorem updateRouting_hasStop_iff (route : List MapNode)
    (signs : List DetectedStopSign) (i : Nat) (hi : i < route.length) :
    ((updateRoutingWithStopSigns route signs).getD i default).hasStop = true ↔
      ((route.getD i default).hasStop = true ∨
        ∃ s ∈ signs,
          Real.sqrt ((nodeDistSq (route.getD i default) s : ℚ) : ℝ) < 50) := by
  rw [updateRoutingWithStopSigns, getD_map_of_lt _ _ i hi default default,
    foldl_markNode_eq]
  simp only [Bool.or_eq_true, List.any_eq_true, decide_eq_true_eq,
    sqrt_lt_fifty_iff]

theorem updateRouting_hasStop_iff_witness :
    0 < routeDemo.length ∧
      (((updateRoutingWithStopSigns routeDemo [signDemo]).getD 0 default).hasStop
          = true ↔
        ((routeDemo.getD 0 default).hasStop = true ∨
          ∃ s ∈ [signDemo],
            Real.sqrt ((nodeDistSq (routeDemo.getD 0 default) s : ℚ) : ℝ) < 50)) :=
  ⟨by decide, updateRouting_hasStop_iff routeDemo [signDemo] 0 (by decide)⟩

/-- C4: `updateRoutingWithStopSigns` is monotone on `hasStop`: a node whose
flag is `true` before the call still has it `true` after the call. -/
theorem updateRouting_monotone (route : List MapNode)
    (signs : List DetectedStopSign) (i : Nat)
    (h : (route.getD i default).hasStop = true) :
    ((updateRoutingWithStopSigns route signs).getD i default).hasStop = true := by
  by_cases hi : i < route.length
  · rw [updateRoutingWithStopSigns, getD_map_of_lt _ _ i hi default default,
      foldl_markNode_eq]
    show ((route.getD i default).hasStop || _) = true
    rw [h, Bool.true_or]
  · rw [List.getD_eq_default _ _ (Nat.le_of_not_lt hi)] at h
    exact absurd h (by decide)

theorem updateRouting_monotone_witness :
    (([(⟨0, 0, true⟩ : MapNode)].getD 0 default).hasStop = true) ∧
      ((updateRoutingWithStopSigns [(⟨0, 0, true⟩ : MapNode)] [signFar]).getD 0
          default).hasStop = true :=
  ⟨by decide, updateRouting_monotone [(⟨0, 0, true⟩ : MapNode)] [signFar] 0
    (by decide)⟩

theorem foldl_markNode_idem (signs : List DetectedStopSign) (node : MapNode) :
    signs.foldl markNode (signs.foldl markNode node)
      = signs.foldl markNode node := by
  rw [foldl_markNode_eq signs node]
  rw [foldl_markNode_eq signs ⟨node.x, node.y,
    node.hasStop || signs.any (fun s => decide (nodeDistSq node s < 2500))⟩]
  have hcong : ∀ s, nodeDistSq ⟨node.x, node.y,
      node.hasStop || signs.any (fun s => decide (nodeDistSq node s < 2500))⟩ s
        = nodeDistSq node s :=
    fun s => nodeDistSq_congr rfl rfl s
  simp only [hcong]
  congr 1
  rw [Bool.or_assoc, Bool.or_self]

/-- C5: `updateRoutingWithStopSigns` is idempotent: running it twice with the
same detection list gives the same flags as running it once. -/
theorem updateRouting_idempotent (route : List MapNode)
    (signs : List DetectedStopSign) :
    updateRoutingWithStopSigns (updateRoutingWithStopSigns route signs) signs
      = updateRoutingWithStopSigns route signs := by
  unfold updateRoutingWithStopSigns
  rw [List.map_map]
  exact List.map_congr_left (fun node _ => foldl_markNode_idem signs node)

/-- C6: on the route [(100,150),(200,250),(300,350)] with one detection whose
bounding box has top-left corner (110,160), only node 0 is marked. -/
theorem updateRouting_demoScenario (w h : Int) (c : List Pt) :
    updateRoutingWithStopSigns routeDemo [⟨⟨110, 160, w, h⟩, c⟩]
      = [⟨100, 150, true⟩, ⟨200, 250, false⟩, ⟨300, 350, false⟩] := by
  norm_num [updateRoutingWithStopSigns, routeDemo, markNode, nodeDistSq]

/-- C7: an empty detection list leaves the route exactly unchanged, and an
empty route stays empty; neither is an error. -/
theorem updateRouting_empty_inputs (route : List MapNode)
    (signs : List DetectedStopSign) :
    updateRoutingWithStopSigns route [] = route ∧
      updateRoutingWithStopSigns [] signs = [] := by
  constructor
  · unfold updateRoutingWithStopSigns
    simp
  · rfl

/-- C9: `updateRoutingWithStopSigns` preserves the length of the route and
every node's coordinates; only `hasStop` flags may change. -/
theorem updateRouting_frame (route : List MapNode)
    (signs : List DetectedStopSign) :
    (updateRoutingWithStopSigns route signs).length = route.length ∧
      ∀ i : Nat,
        ((updateRoutingWithStopSigns route signs).getD i default).x
            = (route.getD i default).x ∧
          ((updateRoutingWithStopSigns route signs).getD i default).y
            = (route.getD i default).y := by
  refine ⟨by simp [updateRoutingWithStopSigns], fun i => ?_⟩
  by_cases hi : i < route.length
  · rw [updateRoutingWithStopSigns, getD_map_of_lt _ _ i hi default default,
      foldl_markNode_eq]
    exact ⟨rfl, rfl⟩
  · have h1 : route.getD i default = default :=
      List.getD_eq_default _ _ (Nat.le_of_not_lt hi)
    have h2 : (updateRoutingWithStopSigns route signs).getD i default
        = default := by
      apply List.getD_eq_default
      simpa [updateRoutingWithStopSigns] using Nat.le_of_not_lt hi
    rw [h1, h2]
    exact ⟨rfl, rfl⟩

/-- C10: the result of `updateRoutingWithStopSigns` does not depend on the
order of the detections. -/
theorem updateRouting_perm_invariant (route : List MapNode)
    (signs signs₂ : List DetectedStopSign) (h : signs.Perm signs₂) :
    updateRoutingWithStopSigns route signs
      = updateRoutingWithStopSigns route signs₂ := by
  unfold updateRoutingWithStopSigns
  apply List.map_congr_left
  intro node _
  rw [foldl_markNode_eq, foldl_markNode_eq]
  congr 1
  rw [any_perm h]

theorem updateRouting_perm_invariant_witness :
    ([signDemo, signFar].Perm [signFar, signDemo]) ∧
      updateRoutingWithStopSigns routeDemo [signDemo, signFar]
        = updateRoutingWithStopSigns routeDemo [signFar, signDemo] :=
  ⟨List.Perm.swap signFar signDemo [],
    updateRouting_perm_invariant routeDemo [signDemo, signFar]
      [signFar, signDemo] (List.Perm.swap signFar signDemo [])⟩

/-- One pixel or one `cv::Scalar` threshold: three channels
(for HSV: c0 = hue, c1 = saturation, c2 = value). -/
structure Scalar3 where
  c0 : Nat
  c1 : Nat
  c2 : Nat
deriving DecidableEq, Repr

/-- An image: a grid of pixels, row major. -/
abbrev Img := List (List Scalar3)

/-- A binary mask: a grid of booleans. -/
abbrev Mask := List (List Bool)

/-- Elementwise test of `cv::inRange` on one pixel (modelled from the
documented semantics: `lowerb ≤ pixel ≤ upperb` on every channel). -/
def pixInRange (lo hi p : Scalar3) : Bool :=
  decide (lo.c0 ≤ p.c0 ∧ p.c0 ≤ hi.c0 ∧ lo.c1 ≤ p.c1 ∧ p.c1 ≤ hi.c1 ∧
    lo.c2 ≤ p.c2 ∧ p.c2 ≤ hi.c2)

/-- `cv::inRange` (modelled from its documented semantics): binary mask of the
pixels lying between the two bounds on every channel. -/
def inRange (lo hi : Scalar3) (img : Img) : Mask :=
  img.map fun row => row.map (pixInRange lo hi)

/-- `mask1 | mask2`: elementwise boolean or of two masks. -/
def maskOr (m1 m2 : Mask) : Mask :=
  List.zipWith (List.zipWith (fun a b => a || b)) m1 m2

/-- The red-segmentation mask of `detectStopSigns`
(stop_sign_detection.cpp lines 44-49): the two hue-band `inRange` masks
combined with `|`. -/
def redMask (hsv : Img) : Mask :=
  maskOr (inRange ⟨0, 70, 50⟩ ⟨10, 255, 255⟩ hsv)
    (inRange ⟨170, 70, 50⟩ ⟨180, 255, 255⟩ hsv)

/-- The OpenCV primitives `detectStopSigns` calls whose implementations live
outside this repository: colour conversion, the two-iteration erosion and
dilation, external-contour extraction, closed-curve perimeter, polygon
approximation, contour area, and bounding rectangle.  They are parameters of
the embedding; the repository's own logic is proved for every choice. -/
structure CVPrims where
  cvtColorBGR2HSV : Img → Img
  erodeTwice : Mask → Mask
  dilateTwice : Mask → Mask
  findContoursExternal : Mask → List (List Pt)
  arcLengthClosed : List Pt → ℚ
  approxPolyDP : List Pt → ℚ → List Pt
  contourArea : List Pt → ℚ
  boundingRect : List Pt → Rect

/-- The contour loop of `detectStopSigns` (stop_sign_detection.cpp
lines 59-79): approximate each contour with tolerance `0.02 * perimeter` and
keep it only if the approximation has exactly 8 vertices and area
above 1000. -/
def detectLoop (cv : CVPrims) : List (List Pt) → List DetectedStopSign
  | [] => []
  | cnt :: rest =>
    let perimeter := cv.arcLengthClosed cnt
    let approx := cv.approxPolyDP cnt (2 / 100 * perimeter)
    if approx.length = 8 ∧ cv.contourArea approx > 1000 then
      { boundingBox := cv.boundingRect approx, contour := approx }
        :: detectLoop cv rest
    else
      detectLoop cv rest

/-- `detectStopSigns` (stop_sign_detection.cpp lines 34-82): HSV conversion,
red segmentation, morphological opening, contour extraction, and the
octagon/area filter loop. -/
def detectStopSigns (cv : CVPrims) (frame : Img) : List DetectedStopSign :=
  let hsv := cv.cvtColorBGR2HSV frame
  let mask := redMask hsv
  let cleaned := cv.dilateTwice (cv.erodeTwice mask)
  let contours := cv.findContoursExternal cleaned
  detectLoop cv contours

/-- `cv::Mat::empty()` for the loaded frame: true when the image has no
pixels (zero rows, or all rows of zero width). -/
def imageEmpty (img : Img) : Bool :=
  img.all fun row => row.isEmpty

/-- Outcome of `main`: either the invalid-image early exit (error message,
return code -1) or a normal run carrying the detections and the annotated
route. -/
inductive MainResult where
  | invalidImage : MainResult
  | ok : List DetectedStopSign → List MapNode → MainResult
deriving DecidableEq, Repr

/-- `main` (stop_sign_detection.cpp lines 133-161), taking the loaded frame
as input: if the frame is empty, fail hard before any detection; otherwise
detect signs and annotate the hardcoded route. -/
def mainRun (cv : CVPrims) (frame : Img) : MainResult :=
  if imageEmpty frame then
    MainResult.invalidImage
  else
    let signs := detectStopSigns cv frame
    MainResult.ok signs (updateRoutingWithStopSigns routeDemo signs)

theorem zipWith_getD {α β γ : Type} (f : α → β → γ) (l₁ : List α)
    (l₂ : List β) (i : Nat) (h₁ : i < l₁.length) (h₂ : i < l₂.length)
    (d : γ) (d₁ : α) (d₂ : β) :
    (List.zipWith f l₁ l₂).getD i d = f (l₁.getD i d₁) (l₂.getD i d₂) := by
  rw [List.getD_eq_getElem _ _ (by simp [List.length_zipWith]; omega),
    List.getD_eq_getElem _ _ h₁, List.getD_eq_getElem _ _ h₂]
  simp [List.getElem_zipWith]

/-- The spec's red-pixel condition: hue in [0,10] or in [170,180], saturation
in [70,255], value in [50,255]. -/
def specRedPixel (p : Scalar3) : Prop :=
  ((0 ≤ p.c0 ∧ p.c0 ≤ 10) ∨ (170 ≤ p.c0 ∧ p.c0 ≤ 180)) ∧
    (70 ≤ p.c1 ∧ p.c1 ≤ 255) ∧ (50 ≤ p.c2 ∧ p.c2 ≤ 255)

/-- C8: a pixel of the combined red-segmentation mask is foreground iff its
HSV value lies in one of the two red hue bands with the saturation and value
bounds of the spec. -/
theorem redMask_spec (hsv : Img) (i j : Nat) (h₁ : i < hsv.length)
    (h₂ : j < (hsv.getD i []).length) :
    (((redMask hsv).getD i []).getD j false = true) ↔
      specRedPixel ((hsv.getD i []).getD j ⟨0, 0, 0⟩) := by
  have l₁ : i < (inRange ⟨0, 70, 50⟩ ⟨10, 255, 255⟩ hsv).length := by
    simpa [inRange] using h₁
  have l₂ : i < (inRange ⟨170, 70, 50⟩ ⟨180, 255, 255⟩ hsv).length := by
    simpa [inRange] using h₁
  have r₁ : (inRange ⟨0, 70, 50⟩ ⟨10, 255, 255⟩ hsv).getD i []
      = (hsv.getD i []).map (pixInRange ⟨0, 70, 50⟩ ⟨10, 255, 255⟩) := by
    rw [inRange, getD_map_of_lt _ _ i h₁ [] []]
  have r₂ : (inRange ⟨170, 70, 50⟩ ⟨180, 255, 255⟩ hsv).getD i []
      = (hsv.getD i []).map (pixInRange ⟨170, 70, 50⟩ ⟨180, 255, 255⟩) := by
    rw [inRange, getD_map_of_lt _ _ i h₁ [] []]
  rw [redMask, maskOr, zipWith_getD _ _ _ i l₁ l₂ [] [] [], r₁, r₂,
    zipWith_getD _ _ _ j (by simpa using h₂) (by simpa using h₂) false
      false false,
    getD_map_of_lt _ _ j h₂ false ⟨0, 0, 0⟩,
    getD_map_of_lt _ _ j h₂ false ⟨0, 0, 0⟩]
  simp only [pixInRange, specRedPixel, Bool.or_eq_true, decide_eq_true_eq]
  omega

/-- A 1×1 all-red sample image (hue 5, saturation 100, value 100). -/
def hsvDemo : Img := [[⟨5, 100, 100⟩]]

theorem redMask_spec_witness :
    0 < hsvDemo.length ∧ 0 < (hsvDemo.getD 0 []).length ∧
      ((((redMask hsvDemo).getD 0 []).getD 0 false = true) ↔
        specRedPixel ((hsvDemo.getD 0 []).getD 0 ⟨0, 0, 0⟩)) :=
  ⟨by decide, by decide, redMask_spec hsvDemo 0 0 (by decide) (by decide)⟩

theorem detectLoop_mem (cv : CVPrims) (contours : List (List Pt))
    (d : DetectedStopSign) (hd : d ∈ detectLoop cv contours) :
    d.contour.length = 8 ∧ cv.contourArea d.contour > 1000 := by
  induction contours with
  | nil => simp [detectLoop] at hd
  | cons cnt rest ih =>
      rw [detectLoop] at hd
      by_cases hc :
          (cv.approxPolyDP cnt (2 / 100 * cv.arcLengthClosed cnt)).length = 8 ∧
            cv.contourArea
              (cv.approxPolyDP cnt (2 / 100 * cv.arcLengthClosed cnt)) > 1000
      · rw [if_pos hc] at hd
        rcases List.mem_cons.mp hd with h | h
        · subst h
          exact ⟨hc.1, hc.2⟩
        · exact ih h
      · rw [if_neg hc] at hd
        exact ih hd

/-- C3: every detection `detectStopSigns` emits has an approximated polygon
with exactly 8 vertices and contour area strictly greater than 1000, for
every choice of the external primitives; contours failing the filter are
silently dropped (the function is total and returns only the passing ones). -/
theorem detect_octagon_filter (cv : CVPrims) (frame : Img)
    (d : DetectedStopSign) (hd : d ∈ detectStopSigns cv frame) :
    d.contour.length = 8 ∧ cv.contourArea d.contour > 1000 :=
  detectLoop_mem cv _ d hd

/-- A regular-looking octagon contour used as sample data. -/
def octContour : List Pt :=
  [⟨2, 0⟩, ⟨4, 0⟩, ⟨6, 2⟩, ⟨6, 4⟩, ⟨4, 6⟩, ⟨2, 6⟩, ⟨0, 4⟩, ⟨0, 2⟩]

/-- Concrete sample primitives: identity conversion and morphology, one
octagonal contour, identity approximation, area 2000. -/
def cvDemo : CVPrims where
  cvtColorBGR2HSV img := img
  erodeTwice m := m
  dilateTwice m := m
  findContoursExternal _ := [octContour]
  arcLengthClosed _ := 20
  approxPolyDP cnt _ := cnt
  contourArea _ := 2000
  boundingRect _ := ⟨0, 0, 6, 6⟩

/-- The detection `cvDemo` produces. -/
def detDemo : DetectedStopSign := ⟨⟨0, 0, 6, 6⟩, octContour⟩

theorem detect_octagon_filter_witness :
    detDemo ∈ detectStopSigns cvDemo hsvDemo ∧
      (detDemo.contour.length = 8 ∧
        cvDemo.contourArea detDemo.contour > 1000) :=
  ⟨by decide, detect_octagon_filter cvDemo hsvDemo detDemo (by decide)⟩

/-- The empty (zero-dimension) image. -/
def emptyImg : Img := []

/-- C2 counterexample: `detectStopSigns` itself has no invalid-image
fail-fast path — on the empty image it runs the whole pipeline and returns a
detection list normally (with these primitives, even a non-empty one),
instead of failing with an `InvalidImage` condition. -/
theorem detect_no_failfast_on_empty :
    imageEmpty emptyImg = true ∧
      detectStopSigns cvDemo emptyImg = [detDemo] :=
  ⟨rfl, by decide⟩

/-- C2 (amended): the empty/zero-dimension check is performed by the caller,
`main`: when the loaded frame is empty, the program fails hard with the
invalid-image error exit before `detectStopSigns` runs, and no detection
list is produced. -/
theorem mainRun_invalidImage (cv : CVPrims) (frame : Img)
    (h : imageEmpty frame = true) :
    mainRun cv frame = MainResult.invalidImage := by
  simp [mainRun, h]

theorem mainRun_invalidImage_witness :
    imageEmpty emptyImg = true ∧
      mainRun cvDemo emptyImg = MainResult.invalidImage :=
  ⟨rfl, mainRun_invalidImage cvDemo emptyImg rfl⟩
